import Mathlib

/-!
Verification of the longitudinal planner
(`selfdrive/controls/lib/longitudinal_planner.py`).

The planner's arithmetic is embedded over `ℚ` (the Python code computes with
floats; all claims under study are order/selection properties, which we read
over exact rationals), except for the turn-derating helper which genuinely
needs `Real.sqrt` and `π` and is embedded over `ℝ`.

External collaborators (the speed smoother, the two longitudinal MPCs, the
FCW checker, the parameter stores) are modelled as inputs: the smoother as an
opaque function argument, the MPCs as per-cycle oracle records exposing the
fields the planner reads.
-/

set_option maxHeartbeats 1000000

/-- Longitudinal plan source (`log.LongitudinalPlan.LongitudinalPlanSource`). -/
inductive Source where
  | cruiseGas
  | cruiseCoast
  | cruiseBrake
  | mpc1
  | mpc2
  deriving DecidableEq, Repr

/-- Long control state (`LongCtrlState` from `longcontrol.py`). -/
inductive LongCtrlState where
  | off
  | pid
  | stopping
  | starting
  deriving DecidableEq, Repr

/-- Modelled from the spec: kph→m/s conversion factor (`CV.KPH_TO_MS`,
from `selfdrive/config.py`, which is not under `src/`). -/
def KPH_TO_MS : ℚ := 1 / 3.6

/-- Modelled from the spec: mph→m/s conversion factor (`CV.MPH_TO_MS`,
from `selfdrive/config.py`, which is not under `src/`). -/
def MPH_TO_MS : ℚ := 1.609344 / 3.6

/-- `LON_MPC_STEP = 0.2`: first mpc step / planning step. -/
def LON_MPC_STEP : ℚ := 0.2

/-- `AWARENESS_DECEL = -0.2`: forced smooth deceleration when distracted. -/
def AWARENESS_DECEL : ℚ := -0.2

/-- `COAST_SPEED = 10.0 * CV.MPH_TO_MS`: brake at this margin above setpoint. -/
def COAST_SPEED : ℚ := 10 * MPH_TO_MS

/-- Cruise min-accel lookup table values (Eco). -/
def _A_CRUISE_MIN_V_ECO : List ℚ := [-1.0, -0.7, -0.6, -0.5, -0.3]

/-- Cruise min-accel lookup table values (Sport). -/
def _A_CRUISE_MIN_V_SPORT : List ℚ := [-3.0, -2.6, -2.3, -2.0, -1.0]

/-- Cruise min-accel lookup table values (following). -/
def _A_CRUISE_MIN_V_FOLLOWING : List ℚ := [-3.0, -2.5, -2.0, -1.5, -1.0]

/-- Cruise min-accel lookup table values (default; the one the code uses). -/
def _A_CRUISE_MIN_V : List ℚ := [-2.0, -1.5, -1.0, -0.7, -0.5]

/-- Cruise min-accel lookup table breakpoints (m/s). -/
def _A_CRUISE_MIN_BP : List ℚ := [0.0, 5.0, 10.0, 20.0, 55.0]

/-- Cruise max-accel lookup table values (Normal mode). -/
def _A_CRUISE_MAX_V : List ℚ := [2.0, 2.0, 1.5, 0.5, 0.3]

/-- Cruise max-accel lookup table values (Eco mode). -/
def _A_CRUISE_MAX_V_ECO : List ℚ := [0.8, 0.9, 1.0, 0.4, 0.2]

/-- Cruise max-accel lookup table values (Sport mode). -/
def _A_CRUISE_MAX_V_SPORT : List ℚ := [3.0, 3.5, 3.0, 2.0, 2.0]

/-- Cruise max-accel lookup table values used when following a lead. -/
def _A_CRUISE_MAX_V_FOLLOWING : List ℚ := [1.6, 1.4, 1.4, 0.7, 0.3]

/-- Cruise max-accel lookup table breakpoints (m/s). -/
def _A_CRUISE_MAX_BP : List ℚ := [0, 5, 10, 20, 55]

/-- Modelled from the spec: one-dimensional piecewise-linear interpolation
with endpoint clamping, on an ascending breakpoint/value pair list —
`common/numpy_fast.interp`, which is not under `src/` (the spec describes it
as "piecewise-linear interpolation over five fixed speed breakpoints" with
clamping at the ends). -/
def interpSeg {α : Type} [LinearOrderedField α] (x : α) : List (α × α) → α
  | [] => 0
  | [(_, y0)] => y0
  | (x0, y0) :: (x1, y1) :: rest =>
      if x ≤ x0 then y0
      else if x ≤ x1 then (x - x0) * (y1 - y0) / (x1 - x0) + y0
      else interpSeg x ((x1, y1) :: rest)

/-- Modelled from the spec: `interp(x, xp, fp)` over separate breakpoint and
value lists (`common/numpy_fast.interp`, not under `src/`). -/
def interp {α : Type} [LinearOrderedField α] (x : α) (xp fp : List α) : α :=
  interpSeg x (xp.zip fp)

/-- `calc_cruise_accel_limits(v_ego, following, accelMode)`: speed-dependent
cruise accel bounds; max-accel curve chosen by the following flag, else by the
mode index clamped into range. -/
def calc_cruise_accel_limits (v_ego : ℚ) (following : Bool) (accelMode : ℤ) : ℚ × ℚ :=
  let a_cruise_min := interp v_ego _A_CRUISE_MIN_BP _A_CRUISE_MIN_V
  let a_cruise_max :=
    if following then
      interp v_ego _A_CRUISE_MAX_BP _A_CRUISE_MAX_V_FOLLOWING
    else
      let modeList := [_A_CRUISE_MAX_V_ECO, _A_CRUISE_MAX_V, _A_CRUISE_MAX_V_SPORT]
      let modeIndex := min (max accelMode 0) ((modeList.length : ℤ) - 1)
      interp v_ego _A_CRUISE_MAX_BP (modeList.getD modeIndex.toNat [])
  (a_cruise_min, a_cruise_max)

/-- Observation of a tracked lead (fields of `radarState.leadOne` that the
planner reads to compute the `following` flag). -/
structure LeadState where
  status : Bool
  dRel : ℚ
  vLeadK : ℚ
  aLeadK : ℚ
  deriving DecidableEq, Repr

/-- Per-cycle oracle view of one `LongitudinalMpc` instance: the fields the
planner reads after calling `mpc.update` (the mpc solver itself is an
external collaborator). -/
structure MpcState where
  prev_lead_status : Bool
  v_mpc : ℚ
  a_mpc : ℚ
  v_mpc_future : ℚ
  deriving DecidableEq, Repr

/-- Mutable fields of `Planner` that the arbitration/state-machine logic
reads and writes (`Planner.__init__`). -/
structure PlannerState where
  v_acc_start : ℚ
  a_acc_start : ℚ
  v_acc_next : ℚ
  a_acc_next : ℚ
  v_acc : ℚ
  v_acc_future : ℚ
  a_acc : ℚ
  v_cruise : ℚ
  a_cruise : ℚ
  source : Source
  cruise_source : Source
  first_loop : Bool
  coast_enabled : Bool
  deriving DecidableEq, Repr

/-- Initial planner state (`Planner.__init__`): zeros, both sources
`cruiseCoast`, `first_loop = True`, `coast_enabled = True`. -/
def initState : PlannerState :=
  { v_acc_start := 0, a_acc_start := 0, v_acc_next := 0, a_acc_next := 0
    v_acc := 0, v_acc_future := 0, a_acc := 0, v_cruise := 0, a_cruise := 0
    source := Source.cruiseCoast, cruise_source := Source.cruiseCoast
    first_loop := true, coast_enabled := true }

/-- Car/environment constants the planner reads (`CP.minSpeedCan`,
`CP.startAccel`, `CP.radarTimeStep`, `V_CRUISE_MAX` from `drive_helpers`). -/
structure Env where
  minSpeedCan : ℚ
  startAccel : ℚ
  radarTimeStep : ℚ
  V_CRUISE_MAX : ℚ
  deriving DecidableEq, Repr

/-- Messages and oracle values consumed by one `Planner.update` call. -/
structure UpdateInputs where
  v_ego : ℚ
  a_ego : ℚ
  gas : ℚ
  brake : ℚ
  long_control_state : LongCtrlState
  v_cruise_kph : ℚ
  force_slow_decel : Bool
  gasPressed : Bool
  lead1 : LeadState
  accelMode : ℤ
  m1 : MpcState
  m2 : MpcState
  deriving DecidableEq, Repr

/-- Interface of the external trajectory smoother
(`speed_smoother(v_start, a_start, v_target, a_max, a_min, j_max, j_min, dt)`,
an external collaborator): a pure function returning a speed/accel pair. -/
def SpeedSmoother : Type := ℚ → ℚ → ℚ → ℚ → ℚ → ℚ → ℚ → ℚ → ℚ × ℚ

/-- Python dict assignment `d[k] = v` on an association list: replaces the
value in place if the key is present, else appends at the end (insertion
order is preserved, as for a Python dict). -/
def dictInsert (l : List (Source × ℚ)) (k : Source) (v : ℚ) : List (Source × ℚ) :=
  match l with
  | [] => [(k, v)]
  | (k', v') :: rest => if k' = k then (k, v) :: rest else (k', v') :: dictInsert rest k v

/-- Python `min(d, key=d.get)` accumulator: keeps the current best on ties, so
the first key (in insertion order) with the minimal value wins. -/
def dictArgminAux (best : Source × ℚ) : List (Source × ℚ) → Source × ℚ
  | [] => best
  | (k, v) :: rest => if v < best.2 then dictArgminAux (k, v) rest else dictArgminAux best rest

/-- Python `min(d, key=d.get)` over a nonempty association list (Python raises
on an empty dict; the planner's dict always holds the cruise candidate, so the
empty case is unreachable and mapped to an arbitrary source). -/
def dictArgmin : List (Source × ℚ) → Source
  | [] => Source.cruiseCoast
  | p :: rest => (dictArgminAux p rest).1

/-- `Planner.choose_solution(v_cruise_setpoint, enabled)`: when enabled,
builds the candidate dict (cruise always, each mpc only when its
`prev_lead_status` holds), picks the minimum-speed key, commits `source` and
`v_acc`/`a_acc`; always recomputes `v_acc_future` as the minimum of both mpc
future speeds and the cruise setpoint. -/
def chooseSolution (st : PlannerState) (m1 m2 : MpcState) (v_cruise_setpoint : ℚ)
    (enabled : Bool) : PlannerState :=
  let st' :=
    if enabled then
      let sols := [(st.cruise_source, st.v_cruise)]
      let sols := if m1.prev_lead_status then dictInsert sols Source.mpc1 m1.v_mpc else sols
      let sols := if m2.prev_lead_status then dictInsert sols Source.mpc2 m2.v_mpc else sols
      let slowest := dictArgmin sols
      let st1 := { st with source := slowest }
      if slowest = Source.mpc1 then
        { st1 with v_acc := m1.v_mpc, a_acc := m1.a_mpc }
      else if slowest = Source.mpc2 then
        { st1 with v_acc := m2.v_mpc, a_acc := m2.a_mpc }
      else if slowest = st.cruise_source then
        { st1 with v_acc := st.v_cruise, a_acc := st.a_cruise }
      else st1
    else st
  { st' with v_acc_future := min (min m1.v_mpc_future m2.v_mpc_future) v_cruise_setpoint }

/-- First half of the coast-enabled path of `Planner.choose_cruise`: if the
previous overall source was `cruiseCoast`, re-anchor the start state to the
measured state; else if it was an mpc, move `cruise_source` to `cruiseGas` or
`cruiseBrake` according to the sign of `gasbrake`. -/
def cruiseReanchor (st : PlannerState) (v_ego a_ego gasbrake : ℚ) : PlannerState :=
  if st.source = Source.cruiseCoast then
    { st with v_acc_start := v_ego, a_acc_start := a_ego }
  else if st.source = Source.mpc1 ∨ st.source = Source.mpc2 then
    { st with cruise_source :=
        if 0 ≤ gasbrake then Source.cruiseGas else Source.cruiseBrake }
  else st

/-- Entry conditions of `Planner.choose_cruise`: when `gasbrake == 0`,
reselect `cruise_source` by comparing the candidate accelerations; otherwise
leave it unchanged. -/
def cruiseEntry (cs : Source) (a_coast a_gas a_brake gasbrake : ℚ) : Source :=
  if gasbrake = 0 then
    if a_brake ≤ a_coast then Source.cruiseBrake
    else if a_coast ≤ a_gas then Source.cruiseGas
    else if a_coast ≤ a_brake ∧ a_gas ≤ a_coast then Source.cruiseCoast
    else cs
  else cs

/-- Lookup in the `cruise` candidate dict of `Planner.choose_cruise`
(`cruise[self.cruise_source]`); a non-cruise key raises `KeyError` in Python,
modelled as `none`. -/
def cruiseLookup (cs : Source) (coastP gasP brakeP : ℚ × ℚ) : Option (ℚ × ℚ) :=
  match cs with
  | Source.cruiseCoast => some coastP
  | Source.cruiseGas => some gasP
  | Source.cruiseBrake => some brakeP
  | _ => none

/-- Standard-cruise branch of `Planner.choose_cruise`, taken when coasting is
disabled: force `cruise_source = cruiseGas` and drive toward the setpoint. -/
def chooseCruiseStandard (smooth : SpeedSmoother) (st : PlannerState)
    (v_cruise_setpoint : ℚ) (lim jerk : ℚ × ℚ) : PlannerState × Option (ℚ × ℚ) :=
  ({ st with cruise_source := Source.cruiseGas },
   some (smooth st.v_acc_start st.a_acc_start v_cruise_setpoint
     lim.2 lim.1 jerk.2 jerk.1 LON_MPC_STEP))

/-- Coast-enabled path of `Planner.choose_cruise`: re-anchor / leave
lead-following, compute the three candidates (coast holds the measured state,
gas smooths to the setpoint, brake smooths to setpoint + `COAST_SPEED`), run
the entry conditions, and return the candidate of the resulting
`cruise_source`. -/
def chooseCruiseCoastPath (smooth : SpeedSmoother) (st : PlannerState)
    (v_ego a_ego v_cruise_setpoint : ℚ) (lim jerk : ℚ × ℚ) (gasbrake : ℚ) :
    PlannerState × Option (ℚ × ℚ) :=
  let st1 := cruiseReanchor st v_ego a_ego gasbrake
  let coastP : ℚ × ℚ := (v_ego, a_ego)
  let gasP := smooth st1.v_acc_start st1.a_acc_start v_cruise_setpoint
    lim.2 lim.1 jerk.2 jerk.1 LON_MPC_STEP
  let brakeP := smooth st1.v_acc_start st1.a_acc_start (v_cruise_setpoint + COAST_SPEED)
    lim.2 lim.1 jerk.2 jerk.1 LON_MPC_STEP
  let cs := cruiseEntry st1.cruise_source coastP.2 gasP.2 brakeP.2 gasbrake
  ({ st1 with cruise_source := cs }, cruiseLookup cs coastP gasP brakeP)

/-- `Planner.choose_cruise(v_ego, a_ego, v_cruise_setpoint,
accel_limits_turns, jerk_limits, gasbrake)`. -/
def chooseCruise (smooth : SpeedSmoother) (st : PlannerState)
    (v_ego a_ego v_cruise_setpoint : ℚ) (lim jerk : ℚ × ℚ) (gasbrake : ℚ) :
    PlannerState × Option (ℚ × ℚ) :=
  if st.coast_enabled = false then
    chooseCruiseStandard smooth st v_cruise_setpoint lim jerk
  else
    chooseCruiseCoastPath smooth st v_ego a_ego v_cruise_setpoint lim jerk gasbrake

/-- Cruise setpoint computation of `Planner.update`: clamp `vCruise` to
`V_CRUISE_MAX` and convert kph to m/s. -/
def cruiseSetpoint (env : Env) (i : UpdateInputs) : ℚ :=
  min i.v_cruise_kph env.V_CRUISE_MAX * KPH_TO_MS

/-- `enabled` computation of `Planner.update`: the long control state is
`pid` or `stopping`. -/
def enabledInput (i : UpdateInputs) : Bool :=
  decide (i.long_control_state = LongCtrlState.pid ∨
          i.long_control_state = LongCtrlState.stopping)

/-- `following` computation of `Planner.update`: lead one is tracked, closer
than 45 m, faster than ego, and accelerating. -/
def followingFlag (lead : LeadState) (v_ego : ℚ) : Bool :=
  lead.status && decide (lead.dRel < 45) && decide (v_ego < lead.vLeadK) &&
    decide ((0 : ℚ) < lead.aLeadK)

/-- Acceleration bounds actually handed to `choose_cruise` by
`Planner.update`: the cruise accel limits (the turn-derate call is a
commented-out passthrough in the source), with the forced-slow-deceleration
clamp applied when requested (`a_max ← min(a_max, AWARENESS_DECEL)`, then
`a_min ← min(a_min, a_max)`). -/
def updateAccelLimits (i : UpdateInputs) (following : Bool) : ℚ × ℚ :=
  let accel_limits_turns := calc_cruise_accel_limits i.v_ego following i.accelMode
  if i.force_slow_decel then
    let amax := min accel_limits_turns.2 AWARENESS_DECEL
    (min accel_limits_turns.1 amax, amax)
  else accel_limits_turns

/-- Jerk bounds of `Planner.update`, derived from the accel limits before
the forced-deceleration clamp: `[min(-0.1, a_min), max(0.1, a_max)]`. -/
def updateJerkLimits (lim : ℚ × ℚ) : ℚ × ℚ :=
  (min (-0.1) lim.1, max 0.1 lim.2)

/-- Safety-reset branch of `Planner.update` (disabled, first loop, or driver
gas override): reset targets and anchors to the measured state (accel clamped
to ≤ 0), or to `(minSpeedCan, startAccel)` when starting from standstill, and
force `cruise_source = cruiseCoast`. -/
def resetBranch (env : Env) (st : PlannerState) (i : UpdateInputs) : PlannerState :=
  let reset_speed := if i.long_control_state = LongCtrlState.starting
    then env.minSpeedCan else i.v_ego
  let reset_accel := if i.long_control_state = LongCtrlState.starting
    then env.startAccel else min i.a_ego 0
  { st with v_acc := reset_speed, a_acc := reset_accel
            v_acc_start := reset_speed, a_acc_start := reset_accel
            v_cruise := reset_speed, a_cruise := reset_accel
            cruise_source := Source.cruiseCoast }

/-- One `Planner.update` cycle: shift the anchor, take the enabled strategy
path or the safety-reset path, arbitrate via `choose_solution`, then
interpolate the next anchor and clear `first_loop`. The FCW check and the
mpc advance calls are external collaborators (the post-advance mpc fields are
the `m1`/`m2` oracle inputs); `none` models the `KeyError` raised by
`choose_cruise` if its dict lookup misses. -/
def update (smooth : SpeedSmoother) (env : Env) (st : PlannerState)
    (i : UpdateInputs) : Option PlannerState :=
  let gasbrake := i.gas - i.brake
  let v_cruise_setpoint := cruiseSetpoint env i
  let enabled := enabledInput i
  let following := followingFlag i.lead1 i.v_ego
  let st0 := { st with v_acc_start := st.v_acc_next, a_acc_start := st.a_acc_next }
  let branch : Option PlannerState :=
    if enabled = true ∧ st0.first_loop = false ∧ i.gasPressed = false then
      let accel_limits_turns := updateAccelLimits i following
      let jerk_limits := updateJerkLimits (calc_cruise_accel_limits i.v_ego following i.accelMode)
      let cc := chooseCruise smooth st0 i.v_ego i.a_ego v_cruise_setpoint
        accel_limits_turns jerk_limits gasbrake
      cc.2.map (fun vc => { cc.1 with v_cruise := max vc.1 0, a_cruise := vc.2 })
    else some (resetBranch env st0 i)
  branch.map (fun st1 =>
    let st2 := chooseSolution st1 i.m1 i.m2 v_cruise_setpoint enabled
    let a_acc_sol := st2.a_acc_start + (env.radarTimeStep / LON_MPC_STEP) * (st2.a_acc - st2.a_acc_start)
    let v_acc_sol := st2.v_acc_start + env.radarTimeStep * (a_acc_sol + st2.a_acc_start) / 2
    { st2 with v_acc_next := v_acc_sol, a_acc_next := a_acc_sol, first_loop := false })

/-- A sequence of planner cycles: fold `update` over a list of per-cycle
inputs, propagating a `KeyError` as `none`. -/
def runCycles (smooth : SpeedSmoother) (env : Env) :
    List UpdateInputs → PlannerState → Option PlannerState
  | [], st => some st
  | i :: rest, st =>
    match update smooth env st i with
    | none => none
    | some st' => runCycles smooth env rest st'

/-- Turn lookup table values (fast accel), over `ℝ` for the turn-derate
computation. -/
def _A_TOTAL_MAX_V : List ℝ := [3.5, 4.0, 5.0]

/-- Turn lookup table breakpoints. -/
def _A_TOTAL_MAX_BP : List ℝ := [0, 25, 55]

/-- Turn lookup table values used when `slowOnCurves` is set. -/
def _A_TOTAL_MAX_V_SOC : List ℝ := [1.7, 3.2]

/-- Turn lookup table breakpoints used when `slowOnCurves` is set. -/
def _A_TOTAL_MAX_BP_SOC : List ℝ := [20, 40]

/-- Modelled from the spec: degrees→radians conversion factor
(`CV.DEG_TO_RAD` from `selfdrive/config.py`, which is not under `src/`). -/
noncomputable def DEG_TO_RAD : ℝ := Real.pi / 180

/-- `limit_accel_in_turns(v_ego, angle_steers, a_target, CP)`: derate the
upper accel bound by the longitudinal acceleration still allowed next to the
estimated lateral acceleration; `slowOnCurves` selects the total-accel table.
Embedded over `ℝ` because of `sqrt` and `π`. -/
noncomputable def limit_accel_in_turns (v_ego angle_steers : ℝ) (a_target : ℝ × ℝ)
    (steerRatio wheelbase : ℝ) (slowOnCurves : Bool) : ℝ × ℝ :=
  let a_total_max := if slowOnCurves then interp v_ego _A_TOTAL_MAX_BP_SOC _A_TOTAL_MAX_V_SOC
    else interp v_ego _A_TOTAL_MAX_BP _A_TOTAL_MAX_V
  let a_y := v_ego ^ 2 * angle_steers * DEG_TO_RAD / (steerRatio * wheelbase)
  let a_x_allowed := Real.sqrt (max (a_total_max ^ 2 - a_y ^ 2) 0)
  (a_target.1, min a_target.2 a_x_allowed)

/-- Concrete cycle inputs used by the witnesses: forced slow deceleration
active, long control in `pid`, no lead. -/
def wIn4 : UpdateInputs :=
  { v_ego := 7, a_ego := 0.3, gas := 0.1, brake := 0
    long_control_state := LongCtrlState.pid, v_cruise_kph := 50
    force_slow_decel := true, gasPressed := false
    lead1 := { status := false, dRel := 0, vLeadK := 0, aLeadK := 0 }
    accelMode := 1
    m1 := { prev_lead_status := false, v_mpc := 0, a_mpc := 0, v_mpc_future := 0 }
    m2 := { prev_lead_status := false, v_mpc := 0, a_mpc := 0, v_mpc_future := 0 } }

/-- Concrete lead used by the C6 witness: tracked, 25 m ahead, faster than
ego and accelerating. -/
def wLead6 : LeadState := { status := true, dRel := 25, vLeadK := 9, aLeadK := 0.5 }

/-- Concrete trajectory smoother used by witnesses: ignores everything but
the target and reports unit acceleration. -/
def wSmooth : SpeedSmoother := fun _ _ v_target _ _ _ _ _ => (v_target, 1)

/-- Concrete planner state for the C1 witness: cruise candidate at 5 m/s. -/
def wSt1 : PlannerState := { initState with v_cruise := 5, a_cruise := 0.2 }

/-- Concrete mpc-1 oracle for the C1 witness: active lead, 4 m/s target. -/
def wM1 : MpcState := { prev_lead_status := true, v_mpc := 4, a_mpc := -0.5, v_mpc_future := 3 }

/-- Concrete mpc-2 oracle for the C1 witness: no active lead. -/
def wM2 : MpcState := { prev_lead_status := false, v_mpc := 0, a_mpc := 0, v_mpc_future := 11 }

/-- Concrete environment for the C2 counterexample: `minSpeedCan = 0.5`. -/
def cexEnv2 : Env := { minSpeedCan := 0.5, startAccel := 1, radarTimeStep := 0.05
                       V_CRUISE_MAX := 144 }

/-- Concrete cycle inputs for the C2 counterexample: disabled
(`long_control_state = starting`), measured speed 5 m/s. -/
def cexIn2 : UpdateInputs :=
  { v_ego := 5, a_ego := 0, gas := 0, brake := 0
    long_control_state := LongCtrlState.starting, v_cruise_kph := 50
    force_slow_decel := false, gasPressed := false
    lead1 := { status := false, dRel := 0, vLeadK := 0, aLeadK := 0 }
    accelMode := 1
    m1 := { prev_lead_status := false, v_mpc := 0, a_mpc := 0, v_mpc_future := 0 }
    m2 := { prev_lead_status := false, v_mpc := 0, a_mpc := 0, v_mpc_future := 0 } }

/-- Concrete disabled-cycle inputs shared by witnesses: long control `off`. -/
def wIn2 : UpdateInputs :=
  { v_ego := 6, a_ego := 0.4, gas := 0, brake := 0.2
    long_control_state := LongCtrlState.off, v_cruise_kph := 40
    force_slow_decel := false, gasPressed := false
    lead1 := { status := false, dRel := 0, vLeadK := 0, aLeadK := 0 }
    accelMode := 1
    m1 := { prev_lead_status := false, v_mpc := 0, a_mpc := 0, v_mpc_future := 9 }
    m2 := { prev_lead_status := false, v_mpc := 0, a_mpc := 0, v_mpc_future := 7 } }

/-- Concrete environment shared by witnesses. -/
def wEnv : Env := { minSpeedCan := 0.5, startAccel := 1, radarTimeStep := 0.05
                    V_CRUISE_MAX := 144 }

/-- Start state for the C3 witness: `cruiseGas`, past the first loop. -/
def wSt3 : PlannerState :=
  { initState with
      cruise_source := Source.cruiseGas
      first_loop := false }

/-- Enabled-path cycle inputs with positive `gasbrake` for the C3 witness. -/
def wIn3 : UpdateInputs :=
  { v_ego := 12, a_ego := 0.1, gas := 0.3, brake := 0
    long_control_state := LongCtrlState.pid, v_cruise_kph := 60
    force_slow_decel := false, gasPressed := false
    lead1 := { status := false, dRel := 0, vLeadK := 0, aLeadK := 0 }
    accelMode := 1
    m1 := { prev_lead_status := false, v_mpc := 0, a_mpc := 0, v_mpc_future := 9 }
    m2 := { prev_lead_status := false, v_mpc := 0, a_mpc := 0, v_mpc_future := 7 } }

/-- Start state for the C9 witness: previous arbitration won by mpc-1. -/
def wSt9 : PlannerState := { initState with source := Source.mpc1 }

/-- Piecewise-linear interpolation over nonpositive values is nonpositive. -/
theorem interpSeg_nonpos (x : ℚ) :
    ∀ l : List (ℚ × ℚ), (∀ p ∈ l, p.2 ≤ 0) → interpSeg x l ≤ 0
  | [], _ => by simp [interpSeg]
  | [(a, b)], h => by
      simpa [interpSeg] using h (a, b) (by simp)
  | (x0, y0) :: (x1, y1) :: rest, h => by
      have hy0 : y0 ≤ 0 := h (x0, y0) (by simp)
      have hy1 : y1 ≤ 0 := h (x1, y1) (by simp)
      simp only [interpSeg]
      split_ifs with h1 h2
      · exact hy0
      · have hx0 : x0 < x := not_le.mp h1
        have hd : (0 : ℚ) < x1 - x0 := by linarith
        have key : (x - x0) * (y1 - y0) ≤ (-y0) * (x1 - x0) := by nlinarith
        have : (x - x0) * (y1 - y0) / (x1 - x0) ≤ -y0 := by
          rw [div_le_iff₀ hd]; linarith
        linarith
      · exact interpSeg_nonpos x ((x1, y1) :: rest)
          (fun p hp => h p (List.mem_cons_of_mem _ hp))

/-- Piecewise-linear interpolation over nonnegative values is nonnegative. -/
theorem interpSeg_nonneg (x : ℚ) :
    ∀ l : List (ℚ × ℚ), (∀ p ∈ l, 0 ≤ p.2) → 0 ≤ interpSeg x l
  | [], _ => by simp [interpSeg]
  | [(a, b)], h => by
      simpa [interpSeg] using h (a, b) (by simp)
  | (x0, y0) :: (x1, y1) :: rest, h => by
      have hy0 : 0 ≤ y0 := h (x0, y0) (by simp)
      have hy1 : 0 ≤ y1 := h (x1, y1) (by simp)
      simp only [interpSeg]
      split_ifs with h1 h2
      · exact hy0
      · have hx0 : x0 < x := not_le.mp h1
        have hd : (0 : ℚ) < x1 - x0 := by linarith
        have key : (-y0) * (x1 - x0) ≤ (x - x0) * (y1 - y0) := by nlinarith
        have : -y0 ≤ (x - x0) * (y1 - y0) / (x1 - x0) := by
          rw [le_div_iff₀ hd]; linarith
        linarith
      · exact interpSeg_nonneg x ((x1, y1) :: rest)
          (fun p hp => h p (List.mem_cons_of_mem _ hp))

example : interp (7.5 : ℚ) _A_CRUISE_MAX_BP _A_CRUISE_MAX_V = 1.75 := by
  norm_num [interp, interpSeg, _A_CRUISE_MAX_BP, _A_CRUISE_MAX_V]
example : interp (-3 : ℚ) _A_CRUISE_MAX_BP _A_CRUISE_MAX_V = 2 := by
  norm_num [interp, interpSeg, _A_CRUISE_MAX_BP, _A_CRUISE_MAX_V]
example : interp (100 : ℚ) _A_CRUISE_MAX_BP _A_CRUISE_MAX_V = 0.3 := by
  norm_num [interp, interpSeg, _A_CRUISE_MAX_BP, _A_CRUISE_MAX_V]
example : (calc_cruise_accel_limits 20 true 1).2 = 0.7 := by
  norm_num [calc_cruise_accel_limits, interp, interpSeg, _A_CRUISE_MAX_BP,
    _A_CRUISE_MAX_V_FOLLOWING]
example : (calc_cruise_accel_limits 20 false 1).2 = 0.5 := by
  norm_num [calc_cruise_accel_limits, interp, interpSeg, _A_CRUISE_MAX_BP,
    _A_CRUISE_MAX_V, _A_CRUISE_MAX_V_ECO, _A_CRUISE_MAX_V_SPORT]
example : (calc_cruise_accel_limits 0 false 7).2 = 3.0 := by
  norm_num [calc_cruise_accel_limits, interp, interpSeg, _A_CRUISE_MAX_BP,
    _A_CRUISE_MAX_V, _A_CRUISE_MAX_V_ECO, _A_CRUISE_MAX_V_SPORT]

/-- All values of the min-accel table are nonpositive. -/
theorem min_table_nonpos : ∀ p ∈ _A_CRUISE_MIN_BP.zip _A_CRUISE_MIN_V, p.2 ≤ 0 := by
  intro p hp
  simp only [_A_CRUISE_MIN_BP, _A_CRUISE_MIN_V, List.zip_cons_cons, List.zip_nil_right,
    List.mem_cons, List.not_mem_nil, or_false] at hp
  rcases hp with h | h | h | h | h <;> subst h <;> norm_num

/-- All values of the following max-accel table are nonnegative. -/
theorem max_following_nonneg :
    ∀ p ∈ _A_CRUISE_MAX_BP.zip _A_CRUISE_MAX_V_FOLLOWING, 0 ≤ p.2 := by
  intro p hp
  simp only [_A_CRUISE_MAX_BP, _A_CRUISE_MAX_V_FOLLOWING, List.zip_cons_cons,
    List.zip_nil_right, List.mem_cons, List.not_mem_nil, or_false] at hp
  rcases hp with h | h | h | h | h <;> subst h <;> norm_num

/-- All values of the Eco max-accel table are nonnegative. -/
theorem max_eco_nonneg : ∀ p ∈ _A_CRUISE_MAX_BP.zip _A_CRUISE_MAX_V_ECO, 0 ≤ p.2 := by
  intro p hp
  simp only [_A_CRUISE_MAX_BP, _A_CRUISE_MAX_V_ECO, List.zip_cons_cons,
    List.zip_nil_right, List.mem_cons, List.not_mem_nil, or_false] at hp
  rcases hp with h | h | h | h | h <;> subst h <;> norm_num

/-- All values of the Normal max-accel table are nonnegative. -/
theorem max_normal_nonneg : ∀ p ∈ _A_CRUISE_MAX_BP.zip _A_CRUISE_MAX_V, 0 ≤ p.2 := by
  intro p hp
  simp only [_A_CRUISE_MAX_BP, _A_CRUISE_MAX_V, List.zip_cons_cons,
    List.zip_nil_right, List.mem_cons, List.not_mem_nil, or_false] at hp
  rcases hp with h | h | h | h | h <;> subst h <;> norm_num

/-- All values of the Sport max-accel table are nonnegative. -/
theorem max_sport_nonneg : ∀ p ∈ _A_CRUISE_MAX_BP.zip _A_CRUISE_MAX_V_SPORT, 0 ≤ p.2 := by
  intro p hp
  simp only [_A_CRUISE_MAX_BP, _A_CRUISE_MAX_V_SPORT, List.zip_cons_cons,
    List.zip_nil_right, List.mem_cons, List.not_mem_nil, or_false] at hp
  rcases hp with h | h | h | h | h <;> subst h <;> norm_num

/-- C8: for every speed, steering angle, steer ratio, wheelbase and bound
pair, `limit_accel_in_turns` returns `(a_target_min, min(a_target_max,
a_x_allowed))` with `a_x_allowed = sqrt(max(a_total_max² − a_y², 0))` and
`a_y = speed² · angle_in_radians / (steer_ratio · wheelbase)`; the radicand
is clamped to zero, so `a_x_allowed ≥ 0` and the function is total. -/
theorem limit_accel_in_turns_spec (v angle steerRatio wheelbase : ℝ)
    (a_target : ℝ × ℝ) (slowOnCurves : Bool) :
    limit_accel_in_turns v angle a_target steerRatio wheelbase slowOnCurves =
      (a_target.1, min a_target.2 (Real.sqrt (max
        ((if slowOnCurves then interp v _A_TOTAL_MAX_BP_SOC _A_TOTAL_MAX_V_SOC
          else interp v _A_TOTAL_MAX_BP _A_TOTAL_MAX_V) ^ 2
          - (v ^ 2 * angle * DEG_TO_RAD / (steerRatio * wheelbase)) ^ 2) 0))) ∧
    0 ≤ Real.sqrt (max
        ((if slowOnCurves then interp v _A_TOTAL_MAX_BP_SOC _A_TOTAL_MAX_V_SOC
          else interp v _A_TOTAL_MAX_BP _A_TOTAL_MAX_V) ^ 2
          - (v ^ 2 * angle * DEG_TO_RAD / (steerRatio * wheelbase)) ^ 2) 0) ∧
    0 ≤ max
        ((if slowOnCurves then interp v _A_TOTAL_MAX_BP_SOC _A_TOTAL_MAX_V_SOC
          else interp v _A_TOTAL_MAX_BP _A_TOTAL_MAX_V) ^ 2
          - (v ^ 2 * angle * DEG_TO_RAD / (steerRatio * wheelbase)) ^ 2) 0 :=
  ⟨rfl, Real.sqrt_nonneg _, le_max_right _ _⟩

/-- C4: on the enabled path, when the forced-slow-deceleration request is
active, the acceleration bounds handed to the cruise strategy satisfy
`a_max ≤ AWARENESS_DECEL` (the fixed constant `-0.2`) and `a_min ≤ a_max`. -/
theorem forced_decel_bounds (i : UpdateInputs) (following : Bool)
    (h : i.force_slow_decel = true) :
    (updateAccelLimits i following).2 ≤ AWARENESS_DECEL ∧
    (updateAccelLimits i following).1 ≤ (updateAccelLimits i following).2 ∧
    AWARENESS_DECEL = -0.2 := by
  simp only [updateAccelLimits, h, if_true]
  exact ⟨min_le_right _ _, min_le_right _ _, rfl⟩

/-- Witness for C4 at the concrete inputs `wIn4`. -/
theorem forced_decel_bounds_witness :
    wIn4.force_slow_decel = true ∧
    ((updateAccelLimits wIn4 false).2 ≤ AWARENESS_DECEL ∧
     (updateAccelLimits wIn4 false).1 ≤ (updateAccelLimits wIn4 false).2 ∧
     AWARENESS_DECEL = -0.2) :=
  ⟨rfl, forced_decel_bounds wIn4 false rfl⟩

/-- C5: for every speed, every following flag, and every integer driving-mode
selector, `calc_cruise_accel_limits` returns a pair with `a_min ≤ a_max`, and
an out-of-range mode selector behaves exactly as its clamp into `[0, 2]`
(never an error). -/
theorem calc_cruise_accel_limits_ordered (v : ℚ) (f : Bool) (m : ℤ) :
    (calc_cruise_accel_limits v f m).1 ≤ (calc_cruise_accel_limits v f m).2 ∧
    calc_cruise_accel_limits v f m = calc_cruise_accel_limits v f (min (max m 0) 2) := by
  constructor
  · have hmin : (calc_cruise_accel_limits v f m).1 ≤ 0 := by
      simp only [calc_cruise_accel_limits]
      exact interpSeg_nonpos v _ min_table_nonpos
    have hmax : 0 ≤ (calc_cruise_accel_limits v f m).2 := by
      simp only [calc_cruise_accel_limits]
      cases f with
      | true => exact interpSeg_nonneg v _ max_following_nonneg
      | false =>
        simp only [Bool.false_eq_true, if_false]
        have hk : (min (max m 0) ((([_A_CRUISE_MAX_V_ECO, _A_CRUISE_MAX_V,
            _A_CRUISE_MAX_V_SPORT].length : ℤ)) - 1)).toNat = 0 ∨
            (min (max m 0) ((([_A_CRUISE_MAX_V_ECO, _A_CRUISE_MAX_V,
            _A_CRUISE_MAX_V_SPORT].length : ℤ)) - 1)).toNat = 1 ∨
            (min (max m 0) ((([_A_CRUISE_MAX_V_ECO, _A_CRUISE_MAX_V,
            _A_CRUISE_MAX_V_SPORT].length : ℤ)) - 1)).toNat = 2 := by
          simp only [List.length]
          omega
        rcases hk with hk | hk | hk <;> rw [hk] <;>
          simp only [List.getD, List.getElem?_cons_zero, List.getElem?_cons_succ,
            Option.getD_some] <;>
          first
            | exact interpSeg_nonneg v _ max_eco_nonneg
            | exact interpSeg_nonneg v _ max_normal_nonneg
            | exact interpSeg_nonneg v _ max_sport_nonneg
    linarith
  · simp only [calc_cruise_accel_limits]
    cases f with
    | true => rfl
    | false =>
      have : min (max m 0) ((([_A_CRUISE_MAX_V_ECO, _A_CRUISE_MAX_V,
          _A_CRUISE_MAX_V_SPORT].length : ℤ)) - 1) =
          min (max (min (max m 0) 2) 0) ((([_A_CRUISE_MAX_V_ECO, _A_CRUISE_MAX_V,
          _A_CRUISE_MAX_V_SPORT].length : ℤ)) - 1) := by
        simp only [List.length]
        omega
      rw [this]

/-- C6 counterexample: at 20 m/s the following-curve `a_max` (0.7) is
strictly greater than the non-following Normal-mode value (0.5), so the
claimed "following `a_max` ≤ Normal value at the same speed, for every
speed" is false. -/
theorem following_curve_exceeds_normal_at_20 :
    ¬ ((calc_cruise_accel_limits 20 true 1).2 ≤ (calc_cruise_accel_limits 20 false 1).2) := by
  norm_num [calc_cruise_accel_limits, interp, interpSeg, _A_CRUISE_MAX_BP,
    _A_CRUISE_MAX_V, _A_CRUISE_MAX_V_FOLLOWING, _A_CRUISE_MAX_V_ECO,
    _A_CRUISE_MAX_V_SPORT]

/-- C6 amended: a tracked lead within 30 m, faster than ego and accelerating
makes the following flag true (the code's threshold is 45 m, which 30 m
satisfies), and `a_max` then comes from the following curve; the
following-curve value is below the non-following Normal-mode value only for
speeds up to 40/3 m/s (beyond that, up to 55 m/s, it exceeds it — see the
counterexample at 20 m/s). -/
theorem following_flag_and_curve (lead : LeadState) (v_ego : ℚ) (m : ℤ)
    (hs : lead.status = true) (hd : lead.dRel ≤ 30) (hv : v_ego < lead.vLeadK)
    (ha : 0 < lead.aLeadK) :
    followingFlag lead v_ego = true ∧
    (calc_cruise_accel_limits v_ego (followingFlag lead v_ego) m).2 =
      interp v_ego _A_CRUISE_MAX_BP _A_CRUISE_MAX_V_FOLLOWING ∧
    ∀ v : ℚ, v ≤ 40 / 3 →
      interp v _A_CRUISE_MAX_BP _A_CRUISE_MAX_V_FOLLOWING ≤
        interp v _A_CRUISE_MAX_BP _A_CRUISE_MAX_V := by
  have hflag : followingFlag lead v_ego = true := by
    simp only [followingFlag, hs, Bool.true_and, Bool.and_eq_true, decide_eq_true_eq]
    exact ⟨⟨by linarith, hv⟩, ha⟩
  refine ⟨hflag, ?_, ?_⟩
  · rw [hflag]
    simp [calc_cruise_accel_limits]
  · intro v hv13
    simp only [interp, _A_CRUISE_MAX_BP, _A_CRUISE_MAX_V_FOLLOWING, _A_CRUISE_MAX_V,
      List.zip_cons_cons, List.zip_nil_right]
    simp only [interpSeg]
    split_ifs <;> linarith

/-- Witness for C6 at the concrete lead `wLead6` and ego speed 7 m/s. -/
theorem following_flag_and_curve_witness :
    (wLead6.status = true ∧ wLead6.dRel ≤ 30 ∧ (7 : ℚ) < wLead6.vLeadK ∧
      (0 : ℚ) < wLead6.aLeadK) ∧
    (followingFlag wLead6 7 = true ∧
     (calc_cruise_accel_limits 7 (followingFlag wLead6 7) 1).2 =
       interp 7 _A_CRUISE_MAX_BP _A_CRUISE_MAX_V_FOLLOWING ∧
     ∀ v : ℚ, v ≤ 40 / 3 →
       interp v _A_CRUISE_MAX_BP _A_CRUISE_MAX_V_FOLLOWING ≤
         interp v _A_CRUISE_MAX_BP _A_CRUISE_MAX_V) :=
  ⟨⟨rfl, by norm_num [wLead6], by norm_num [wLead6], by norm_num [wLead6]⟩,
   following_flag_and_curve wLead6 7 1 rfl (by norm_num [wLead6])
     (by norm_num [wLead6]) (by norm_num [wLead6])⟩

/-- C7: in `choose_cruise` with coasting enabled, when `gasbrake` is exactly
zero the cruise source is reselected by comparing the candidate
accelerations — `cruiseBrake` if `a_brake ≤ a_coast`, else `cruiseGas` if
`a_gas ≥ a_coast`, else `cruiseCoast` (the remaining case, where
`a_brake ≥ a_coast ≥ a_gas`) — and the returned pair is the candidate of the
resulting cruise source; when `gasbrake` is nonzero this reselection does not
occur and the candidate of the unreselected cruise source is returned. -/
theorem choose_cruise_entry_conditions (smooth : SpeedSmoother) (st : PlannerState)
    (v_ego a_ego v_cruise_setpoint : ℚ) (lim jerk : ℚ × ℚ) (gasbrake : ℚ)
    (st1 : PlannerState) (gasP brakeP : ℚ × ℚ)
    (hc : st.coast_enabled = true)
    (h1 : st1 = cruiseReanchor st v_ego a_ego gasbrake)
    (hg : gasP = smooth st1.v_acc_start st1.a_acc_start v_cruise_setpoint
      lim.2 lim.1 jerk.2 jerk.1 LON_MPC_STEP)
    (hb : brakeP = smooth st1.v_acc_start st1.a_acc_start (v_cruise_setpoint + COAST_SPEED)
      lim.2 lim.1 jerk.2 jerk.1 LON_MPC_STEP) :
    (gasbrake = 0 →
      (chooseCruise smooth st v_ego a_ego v_cruise_setpoint lim jerk gasbrake).1.cruise_source =
        (if brakeP.2 ≤ a_ego then Source.cruiseBrake
         else if a_ego ≤ gasP.2 then Source.cruiseGas
         else Source.cruiseCoast) ∧
      (chooseCruise smooth st v_ego a_ego v_cruise_setpoint lim jerk gasbrake).2 =
        cruiseLookup
          (chooseCruise smooth st v_ego a_ego v_cruise_setpoint lim jerk gasbrake).1.cruise_source
          (v_ego, a_ego) gasP brakeP) ∧
    (gasbrake ≠ 0 →
      (chooseCruise smooth st v_ego a_ego v_cruise_setpoint lim jerk gasbrake).1.cruise_source =
        st1.cruise_source ∧
      (chooseCruise smooth st v_ego a_ego v_cruise_setpoint lim jerk gasbrake).2 =
        cruiseLookup st1.cruise_source (v_ego, a_ego) gasP brakeP) := by
  subst h1 hg hb
  simp only [chooseCruise, hc, Bool.true_eq_false, if_false, chooseCruiseCoastPath]
  constructor
  · intro h0
    simp only [cruiseEntry, h0, if_true]
    split_ifs with hb1 hg1 hc1
    · exact ⟨rfl, trivial⟩
    · exact ⟨rfl, trivial⟩
    · exact ⟨rfl, trivial⟩
    · exact absurd ⟨by linarith, by linarith⟩ hc1
  · intro hne
    simp only [cruiseEntry, hne, if_false]
    exact ⟨trivial, trivial⟩

/-- Witness for C7: from `initState` with `gasbrake = 0`, ego accel `-1` and
setpoint 10, the entry conditions reselect `cruiseGas` (since
`a_gas = 1 ≥ a_coast = -1`) and return the gas candidate. -/
theorem choose_cruise_entry_conditions_witness :
    initState.coast_enabled = true ∧
    (chooseCruise wSmooth initState 5 (-1) 10 (-1, 1) (-1, 1) 0).1.cruise_source =
      Source.cruiseGas ∧
    (chooseCruise wSmooth initState 5 (-1) 10 (-1, 1) (-1, 1) 0).2 = some (10, 1) := by
  have h := (choose_cruise_entry_conditions wSmooth initState 5 (-1) 10 (-1, 1) (-1, 1) 0
      (cruiseReanchor initState 5 (-1) 0) _ _ rfl rfl rfl rfl).1 rfl
  have hsrc : (chooseCruise wSmooth initState 5 (-1) 10 (-1, 1) (-1, 1) 0).1.cruise_source =
      Source.cruiseGas := by
    rw [h.1]
    norm_num [wSmooth]
  refine ⟨rfl, hsrc, ?_⟩
  rw [h.2, hsrc]
  norm_num [wSmooth, cruiseLookup]

/-- C1: with `enabled`, `choose_solution` picks from the candidate set (the
cruise candidate always present under `cruise_source`, each mpc candidate
present only when its tracker reports an active lead) exactly the candidate
of minimum target speed — on an exact speed tie between the cruise candidate
and an mpc candidate the cruise candidate wins — and commits `v_acc`/`a_acc`
to the winner's speed and acceleration. -/
theorem choose_solution_picks_min_speed (st : PlannerState) (m1 m2 : MpcState)
    (v_cruise_setpoint : ℚ) (st' : PlannerState)
    (h1 : st.cruise_source ≠ Source.mpc1) (h2 : st.cruise_source ≠ Source.mpc2)
    (hst' : st' = chooseSolution st m1 m2 v_cruise_setpoint true) :
    ((st'.source = st.cruise_source ∧ st'.v_acc = st.v_cruise ∧ st'.a_acc = st.a_cruise) ∨
     (m1.prev_lead_status = true ∧ st'.source = Source.mpc1 ∧
       st'.v_acc = m1.v_mpc ∧ st'.a_acc = m1.a_mpc) ∨
     (m2.prev_lead_status = true ∧ st'.source = Source.mpc2 ∧
       st'.v_acc = m2.v_mpc ∧ st'.a_acc = m2.a_mpc)) ∧
    st'.v_acc ≤ st.v_cruise ∧
    (m1.prev_lead_status = true → st'.v_acc ≤ m1.v_mpc) ∧
    (m2.prev_lead_status = true → st'.v_acc ≤ m2.v_mpc) ∧
    ((m1.prev_lead_status = true → st.v_cruise ≤ m1.v_mpc) →
     (m2.prev_lead_status = true → st.v_cruise ≤ m2.v_mpc) →
     st'.source = st.cruise_source ∧ st'.v_acc = st.v_cruise ∧ st'.a_acc = st.a_cruise) := by
  subst hst'
  cases hm1 : m1.prev_lead_status <;> cases hm2 : m2.prev_lead_status <;>
    simp only [chooseSolution, hm1, hm2, Bool.false_eq_true, Bool.true_eq_false,
      if_true, if_false, dictInsert, dictArgmin, dictArgminAux, h1, h2] <;>
    (try split_ifs) <;>
    (try simp_all) <;>
    (repeat' apply And.intro) <;>
    (first | rfl | linarith)

/-- Witness for C1 at the concrete state `wSt1` with mpc-1 active and slower
than the cruise candidate. -/
theorem choose_solution_picks_min_speed_witness :
    (wSt1.cruise_source ≠ Source.mpc1 ∧ wSt1.cruise_source ≠ Source.mpc2) ∧
    ((((chooseSolution wSt1 wM1 wM2 8 true).source = wSt1.cruise_source ∧
        (chooseSolution wSt1 wM1 wM2 8 true).v_acc = wSt1.v_cruise ∧
        (chooseSolution wSt1 wM1 wM2 8 true).a_acc = wSt1.a_cruise) ∨
      (wM1.prev_lead_status = true ∧ (chooseSolution wSt1 wM1 wM2 8 true).source = Source.mpc1 ∧
        (chooseSolution wSt1 wM1 wM2 8 true).v_acc = wM1.v_mpc ∧
        (chooseSolution wSt1 wM1 wM2 8 true).a_acc = wM1.a_mpc) ∨
      (wM2.prev_lead_status = true ∧ (chooseSolution wSt1 wM1 wM2 8 true).source = Source.mpc2 ∧
        (chooseSolution wSt1 wM1 wM2 8 true).v_acc = wM2.v_mpc ∧
        (chooseSolution wSt1 wM1 wM2 8 true).a_acc = wM2.a_mpc)) ∧
     (chooseSolution wSt1 wM1 wM2 8 true).v_acc ≤ wSt1.v_cruise ∧
     (wM1.prev_lead_status = true → (chooseSolution wSt1 wM1 wM2 8 true).v_acc ≤ wM1.v_mpc) ∧
     (wM2.prev_lead_status = true → (chooseSolution wSt1 wM1 wM2 8 true).v_acc ≤ wM2.v_mpc) ∧
     ((wM1.prev_lead_status = true → wSt1.v_cruise ≤ wM1.v_mpc) →
      (wM2.prev_lead_status = true → wSt1.v_cruise ≤ wM2.v_mpc) →
      (chooseSolution wSt1 wM1 wM2 8 true).source = wSt1.cruise_source ∧
      (chooseSolution wSt1 wM1 wM2 8 true).v_acc = wSt1.v_cruise ∧
      (chooseSolution wSt1 wM1 wM2 8 true).a_acc = wSt1.a_cruise)) :=
  ⟨⟨by decide, by decide⟩,
   choose_solution_picks_min_speed wSt1 wM1 wM2 8 _ (by decide) (by decide) rfl⟩

/-- `choose_solution` with `enabled = false` only recomputes `v_acc_future`:
the rest of the state is returned unchanged. -/
theorem chooseSolution_not_enabled (st : PlannerState) (m1 m2 : MpcState) (sp : ℚ) :
    chooseSolution st m1 m2 sp false =
      { st with v_acc_future := min (min m1.v_mpc_future m2.v_mpc_future) sp } := rfl

/-- C2 counterexample: with `enabled = false` but `long_control_state =
starting`, one update cycle sets `v_acc` to `minSpeedCan` (here 0.5), not to
the measured speed (here 5), so the claim as stated — the reset pair always
equals the measured state — is false at this input. -/
theorem safety_reset_starting_cex :
    (update wSmooth cexEnv2 initState cexIn2).map PlannerState.v_acc = some 0.5 ∧
    enabledInput cexIn2 = false ∧ cexIn2.v_ego = 5 ∧ (0.5 : ℚ) ≠ 5 :=
  ⟨rfl, rfl, rfl, by norm_num⟩

/-- C2 amended: with `enabled = false`, after one update cycle
`v_acc = a_acc = v_cruise = a_cruise` equal the measured state (accel clamped
to ≤ 0) when the control state is not `starting`; when it is `starting`, they
equal `(minSpeedCan, startAccel)` instead; `cruise_source = cruiseCoast` in
both cases. -/
theorem safety_reset_disabled (smooth : SpeedSmoother) (env : Env) (st : PlannerState)
    (i : UpdateInputs) (st' : PlannerState)
    (hen : enabledInput i = false)
    (hup : update smooth env st i = some st') :
    st'.v_acc = (if i.long_control_state = LongCtrlState.starting
      then env.minSpeedCan else i.v_ego) ∧
    st'.a_acc = (if i.long_control_state = LongCtrlState.starting
      then env.startAccel else min i.a_ego 0) ∧
    st'.v_cruise = (if i.long_control_state = LongCtrlState.starting
      then env.minSpeedCan else i.v_ego) ∧
    st'.a_cruise = (if i.long_control_state = LongCtrlState.starting
      then env.startAccel else min i.a_ego 0) ∧
    st'.cruise_source = Source.cruiseCoast := by
  simp only [update, hen, Bool.false_eq_true, false_and, if_false,
    Option.map_some', Option.some.injEq] at hup
  subst hup
  exact ⟨rfl, rfl, rfl, rfl, rfl⟩

/-- Witness for C2 (amended) at the concrete disabled inputs `wIn2`. -/
theorem safety_reset_disabled_witness :
    enabledInput wIn2 = false ∧
    (update wSmooth wEnv initState wIn2).map PlannerState.v_acc = some 6 ∧
    (update wSmooth wEnv initState wIn2).map PlannerState.a_acc = some 0 ∧
    (update wSmooth wEnv initState wIn2).map PlannerState.cruise_source =
      some Source.cruiseCoast := by
  refine ⟨rfl, ?_⟩
  rcases hx : update wSmooth wEnv initState wIn2 with _ | st'
  · have hs : (update wSmooth wEnv initState wIn2).isSome = true := rfl
    rw [hx] at hs
    simp at hs
  · have h := safety_reset_disabled wSmooth wEnv initState wIn2 st' rfl hx
    refine ⟨?_, ?_, ?_⟩ <;>
      norm_num [h.1, h.2.1, h.2.2.2.2, wIn2] <;>
      (intro hcon; cases hcon)

/-- `choose_solution` never writes `cruise_source`. -/
theorem chooseSolution_cruise_source (st : PlannerState) (m1 m2 : MpcState)
    (sp : ℚ) (e : Bool) :
    (chooseSolution st m1 m2 sp e).cruise_source = st.cruise_source := by
  cases e <;> simp only [chooseSolution] <;> split_ifs <;> rfl

/-- When the cruise state machine is in `cruiseGas` and `gasbrake` is
strictly positive, `choose_cruise` keeps `cruiseGas` (on both the
coast-enabled and the coast-disabled branch) and its dict lookup succeeds. -/
theorem chooseCruise_gas_stable (smooth : SpeedSmoother) (st : PlannerState)
    (v a sp : ℚ) (lim jerk : ℚ × ℚ) (gb : ℚ)
    (hGas : st.cruise_source = Source.cruiseGas) (hgb : 0 < gb) :
    (chooseCruise smooth st v a sp lim jerk gb).1.cruise_source = Source.cruiseGas ∧
    ∃ p, (chooseCruise smooth st v a sp lim jerk gb).2 = some p := by
  have hne : gb ≠ 0 := ne_of_gt hgb
  have hge : 0 ≤ gb := le_of_lt hgb
  simp only [chooseCruise, chooseCruiseStandard, chooseCruiseCoastPath,
    cruiseReanchor, cruiseEntry, hne, hge, if_false, if_true]
  split_ifs <;> simp_all [cruiseLookup]

/-- One enabled-path `update` cycle with strictly positive `gasbrake`
preserves `cruise_source = cruiseGas`, and leaves `first_loop = false`. -/
theorem update_preserves_gas (smooth : SpeedSmoother) (env : Env)
    (st : PlannerState) (i : UpdateInputs) (st' : PlannerState)
    (hGas : st.cruise_source = Source.cruiseGas) (hfl : st.first_loop = false)
    (he : enabledInput i = true) (hgp : i.gasPressed = false)
    (hgb : 0 < i.gas - i.brake)
    (hup : update smooth env st i = some st') :
    st'.cruise_source = Source.cruiseGas ∧ st'.first_loop = false := by
  obtain ⟨hcs, p, hp⟩ := chooseCruise_gas_stable smooth
    { st with v_acc_start := st.v_acc_next, a_acc_start := st.a_acc_next
              first_loop := false }
    i.v_ego i.a_ego (cruiseSetpoint env i)
    (updateAccelLimits i (followingFlag i.lead1 i.v_ego))
    (updateJerkLimits (calc_cruise_accel_limits i.v_ego (followingFlag i.lead1 i.v_ego) i.accelMode))
    (i.gas - i.brake) hGas hgb
  simp only [update, he, hfl, hgp, and_true, and_self, if_true, hp,
    Option.map_some', Option.some.injEq] at hup
  subst hup
  exact ⟨by simp [chooseSolution_cruise_source, hcs], rfl⟩

/-- C3: if `cruise_source = cruiseGas` at the start and every cycle of a run
takes the enabled path with strictly positive `gasbrake`, then
`cruise_source` is still `cruiseGas` after the run — for every trajectory
smoother and regardless of which source won the previous arbitration (this
also holds after every prefix of the run, each prefix being such a run). -/
theorem cruise_gas_hysteresis (smooth : SpeedSmoother) (env : Env)
    (inps : List UpdateInputs) (st st' : PlannerState)
    (hGas : st.cruise_source = Source.cruiseGas) (hfl : st.first_loop = false)
    (hin : ∀ i ∈ inps, enabledInput i = true ∧ i.gasPressed = false ∧ 0 < i.gas - i.brake)
    (hrun : runCycles smooth env inps st = some st') :
    st'.cruise_source = Source.cruiseGas := by
  induction inps generalizing st with
  | nil =>
    simp only [runCycles, Option.some.injEq] at hrun
    rw [← hrun]
    exact hGas
  | cons i rest ih =>
    simp only [runCycles] at hrun
    rcases hu : update smooth env st i with _ | st1
    · rw [hu] at hrun
      cases hrun
    · rw [hu] at hrun
      obtain ⟨hi1, hi2, hi3⟩ := hin i (List.mem_cons_self i rest)
      obtain ⟨hg1, hf1⟩ := update_preserves_gas smooth env st i st1 hGas hfl hi1 hi2 hi3 hu
      exact ih st1 hg1 hf1 (fun j hj => hin j (List.mem_cons_of_mem i hj)) hrun

/-- Witness for C3: one concrete enabled cycle with `gasbrake = 0.3 > 0` from
a `cruiseGas` state keeps `cruise_source = cruiseGas`. -/
theorem cruise_gas_hysteresis_witness :
    wSt3.cruise_source = Source.cruiseGas ∧ wSt3.first_loop = false ∧
    (∀ i ∈ [wIn3], enabledInput i = true ∧ i.gasPressed = false ∧ 0 < i.gas - i.brake) ∧
    (runCycles wSmooth wEnv [wIn3] wSt3).map PlannerState.cruise_source =
      some Source.cruiseGas := by
  have hmem : ∀ i ∈ [wIn3], enabledInput i = true ∧ i.gasPressed = false ∧
      0 < i.gas - i.brake := by
    intro i hi
    simp only [List.mem_singleton] at hi
    subst hi
    exact ⟨rfl, rfl, by norm_num [wIn3]⟩
  have hs : (runCycles wSmooth wEnv [wIn3] wSt3).isSome = true := by
    norm_num [runCycles, update, chooseCruise, chooseCruiseCoastPath, cruiseReanchor,
      cruiseEntry, cruiseLookup, wSt3, wIn3, initState, enabledInput, wSmooth]
  rw [Option.isSome_iff_exists] at hs
  obtain ⟨st', hx⟩ := hs
  have h := cruise_gas_hysteresis wSmooth wEnv [wIn3] wSt3 st' rfl rfl hmem hx
  exact ⟨rfl, rfl, hmem, by rw [hx]; simp [h]⟩

/-- C9: with `enabled = false`, `choose_solution` leaves `source`, `v_acc`
and `a_acc` untouched — in particular a full disabled update cycle keeps the
previous `source` (which may still be a lead-track variant) while
`cruise_source` is forced to `cruiseCoast` — yet `v_acc_future` is still
recomputed as the minimum of both mpc future speeds and the cruise
setpoint. -/
theorem choose_solution_disabled_frame (smooth : SpeedSmoother) (env : Env)
    (st : PlannerState) (i : UpdateInputs) (st' : PlannerState)
    (hen : enabledInput i = false)
    (hup : update smooth env st i = some st') :
    (chooseSolution st i.m1 i.m2 (cruiseSetpoint env i) false).source = st.source ∧
    (chooseSolution st i.m1 i.m2 (cruiseSetpoint env i) false).v_acc = st.v_acc ∧
    (chooseSolution st i.m1 i.m2 (cruiseSetpoint env i) false).a_acc = st.a_acc ∧
    (chooseSolution st i.m1 i.m2 (cruiseSetpoint env i) false).v_acc_future =
      min (min i.m1.v_mpc_future i.m2.v_mpc_future) (cruiseSetpoint env i) ∧
    st'.source = st.source ∧
    st'.cruise_source = Source.cruiseCoast ∧
    st'.v_acc_future =
      min (min i.m1.v_mpc_future i.m2.v_mpc_future) (cruiseSetpoint env i) := by
  simp only [update, hen, Bool.false_eq_true, false_and, if_false,
    Option.map_some', Option.some.injEq] at hup
  subst hup
  exact ⟨rfl, rfl, rfl, rfl, rfl, rfl, rfl⟩

/-- Witness for C9: a concrete disabled cycle from a state whose `source` is
`mpc1` keeps `source = mpc1`, forces `cruise_source = cruiseCoast`, and
recomputes `v_acc_future = min(min(9, 7), setpoint)`. -/
theorem choose_solution_disabled_frame_witness :
    enabledInput wIn2 = false ∧
    (update wSmooth wEnv wSt9 wIn2).map PlannerState.source = some Source.mpc1 ∧
    (update wSmooth wEnv wSt9 wIn2).map PlannerState.cruise_source =
      some Source.cruiseCoast ∧
    (update wSmooth wEnv wSt9 wIn2).map PlannerState.v_acc_future =
      some (min (min wIn2.m1.v_mpc_future wIn2.m2.v_mpc_future) (cruiseSetpoint wEnv wIn2)) := by
  rcases hx : update wSmooth wEnv wSt9 wIn2 with _ | st'
  · have hs : (update wSmooth wEnv wSt9 wIn2).isSome = true := rfl
    rw [hx] at hs
    simp at hs
  · have h := choose_solution_disabled_frame wSmooth wEnv wSt9 wIn2 st' rfl hx
    refine ⟨rfl, ?_, ?_, ?_⟩ <;>
      simp [h.2.2.2.2.1, h.2.2.2.2.2.1, h.2.2.2.2.2.2, wSt9, initState]

/-- `choose_cruise` never writes `coast_enabled`. -/
theorem chooseCruise_coast_enabled (smooth : SpeedSmoother) (st : PlannerState)
    (v a sp : ℚ) (lim jerk : ℚ × ℚ) (gb : ℚ) :
    (chooseCruise smooth st v a sp lim jerk gb).1.coast_enabled = st.coast_enabled := by
  simp only [chooseCruise, chooseCruiseStandard, chooseCruiseCoastPath, cruiseReanchor]
  split_ifs <;> rfl

/-- `choose_solution` never writes `coast_enabled`. -/
theorem chooseSolution_coast_enabled (st : PlannerState) (m1 m2 : MpcState)
    (sp : ℚ) (e : Bool) :
    (chooseSolution st m1 m2 sp e).coast_enabled = st.coast_enabled := by
  cases e <;> simp only [chooseSolution] <;> split_ifs <;> rfl

/-- One `update` cycle never writes `coast_enabled`. -/
theorem update_coast_enabled (smooth : SpeedSmoother) (env : Env)
    (st : PlannerState) (i : UpdateInputs) (st' : PlannerState)
    (hup : update smooth env st i = some st') :
    st'.coast_enabled = st.coast_enabled := by
  simp only [update] at hup
  rw [Option.map_eq_some'] at hup
  obtain ⟨st1, hb, hf⟩ := hup
  rw [← hf, chooseSolution_coast_enabled]
  split at hb
  · rw [Option.map_eq_some'] at hb
    obtain ⟨vc, hcc, hvc⟩ := hb
    rw [← hvc]
    exact chooseCruise_coast_enabled smooth _ i.v_ego i.a_ego (cruiseSetpoint env i) _ _ _
  · rw [Option.some.injEq] at hb
    rw [← hb]
    rfl

/-- Every run of cycles preserves `coast_enabled`. -/
theorem runCycles_coast_enabled (smooth : SpeedSmoother) (env : Env) :
    ∀ (inps : List UpdateInputs) (st st' : PlannerState),
      runCycles smooth env inps st = some st' → st'.coast_enabled = st.coast_enabled := by
  intro inps
  induction inps with
  | nil =>
    intro st st' h
    simp only [runCycles, Option.some.injEq] at h
    rw [← h]
  | cons i rest ih =>
    intro st st' h
    simp only [runCycles] at h
    rcases hu : update smooth env st i with _ | st1
    · rw [hu] at h
      cases h
    · rw [hu] at h
      rw [ih st1 st' h, update_coast_enabled smooth env st i st1 hu]

/-- C10: in every planner state reachable from the initial state,
`coast_enabled` is true — it is set at construction and never written again —
so `choose_cruise` always takes the coast-enabled path and its
coast-disabled branch is unreachable. -/
theorem coast_enabled_invariant (smooth : SpeedSmoother) (env : Env)
    (inps : List UpdateInputs) (st' : PlannerState)
    (hrun : runCycles smooth env inps initState = some st') :
    st'.coast_enabled = true ∧
    ∀ v a sp lim jerk gb, chooseCruise smooth st' v a sp lim jerk gb =
      chooseCruiseCoastPath smooth st' v a sp lim jerk gb := by
  have hce : st'.coast_enabled = true :=
    runCycles_coast_enabled smooth env inps initState st' hrun
  refine ⟨hce, ?_⟩
  intro v a sp lim jerk gb
  simp [chooseCruise, hce]

/-- Witness for C10: after one concrete disabled cycle from the initial
state, `coast_enabled` is still true. -/
theorem coast_enabled_invariant_witness :
    (runCycles wSmooth wEnv [wIn2] initState).map PlannerState.coast_enabled = some true := by
  rcases hx : runCycles wSmooth wEnv [wIn2] initState with _ | st'
  · have hs : (runCycles wSmooth wEnv [wIn2] initState).isSome = true := rfl
    rw [hx] at hs
    simp at hs
  · have h := coast_enabled_invariant wSmooth wEnv [wIn2] st' hx
    simp [h.1]
